import Mathlib

/-!
Verification of the pam-authramp lockout core against its design notes.

The development shallow-embeds the workspace revision of the module
(`crates/lib/src/tally.rs`, `crates/lib/src/lib.rs`): the `Tally` record,
the delay calculator `get_delay`, the action dispatch
`update_tally_from_section`, file creation, the tally-file loader
`load_tally_from_file` / `new_from_tally_file`, the lockout bounce
`bounce_auth`, and the `sm_authenticate` hook result.

Modelling conventions:
- `chrono::DateTime<Utc>` instants and `chrono::Duration` values are whole
  seconds on an idealized timeline, embedded as `Int`
  (`DateTime::<Utc>::default()` is the Unix epoch, embedded as `0`;
  `Duration::hours(24)` is `86400`).
- `f64` arithmetic is embedded by `F64`: finite doubles are idealized as
  exact real numbers, while the IEEE-754 special values (`NaN`, `±inf`)
  and their propagation through `*`, `+`, `-`, `ln`, and the saturating
  `as i64` cast (`NaN` to `0`, finite values and the infinities clamped
  to the `i64` range) are modelled exactly: the delay formula relies on
  them when `failures_count <= free_tries` and, for the saturation, at
  extreme configurations.  Rounding error of finite doubles is below the
  resolution of this idealization and is not modelled.
- The tally file is embedded post-parse: `FileContent` distinguishes an
  unreadable file, content the TOML parser rejects, and a parsed table
  with or without its `[Fails]` table; `FailsTable` holds the three
  optional fields, whose values are `TomlValue`s.  A TOML string is
  embedded by whether the chrono `FromStr` accepts it (`StrVal.instant t`)
  or not (`StrVal.garbage`); `Display`/`FromStr` of `DateTime<Utc>`
  round-trips, so serializing an instant yields `StrVal.instant` of the
  same value.
- Filesystem writes are made explicit: the tally operations return the
  `FailsTable` they write alongside the in-memory `Tally`, and fallible
  code returns `Except PamResultCode`.
-/

namespace Authramp

/-- PAM result codes used by the module (pam::constants::PamResultCode). -/
inductive PamResultCode where
  | PAM_SUCCESS
  | PAM_AUTH_ERR
  | PAM_SYSTEM_ERR
  | PAM_USER_UNKNOWN
  | PAM_ABORT
  deriving DecidableEq

/-- The action argument of the module (util::types::Actions). -/
inductive Actions where
  | PREAUTH
  | AUTHSUCC
  | AUTHFAIL
  deriving DecidableEq

/-- Settings fields the lockout core reads (util settings / common config):
`free_tries`, `base_delay_seconds`, `ramp_multiplier` are `i32`,
`even_deny_root` is a bool; `action` and `user` are the optional parsed
action argument and the resolved user, the latter embedded by its uid. -/
structure Settings where
  free_tries : Int
  base_delay_seconds : Int
  ramp_multiplier : Int
  even_deny_root : Bool
  action : Option Actions
  user : Option Int
  deriving DecidableEq

/-- Settings::get_action: the action, or PAM_ABORT when absent. -/
def Settings.get_action (s : Settings) : Except PamResultCode Actions :=
  match s.action with
  | none => .error .PAM_ABORT
  | some a => .ok a

/-- Settings::get_user: the user, or PAM_USER_UNKNOWN when absent. -/
def Settings.get_user (s : Settings) : Except PamResultCode Int :=
  match s.user with
  | none => .error .PAM_USER_UNKNOWN
  | some u => .ok u

/-- The in-memory Tally record: `failures_count` (i32), `failure_instant`
(a `DateTime<Utc>`), and the optional `unlock_instant`.  The `file` path
field of the Rust struct carries no lockout state and is omitted. -/
structure Tally where
  failures_count : Int
  failure_instant : Int
  unlock_instant : Option Int
  deriving DecidableEq

/-- Tally::default(): zero failures, no unlock instant, and the current
timestamp, which is passed in explicitly as `now`. -/
def Tally.default (now : Int) : Tally :=
  { failures_count := 0, failure_instant := now, unlock_instant := none }

/-- An idealized IEEE-754 double: an exact real number when finite, plus
the special values.  Signed zero is not distinguished (the module never
produces a negative zero on the paths modelled here). -/
inductive F64 where
  | finite (x : ℝ)
  | pinf
  | ninf
  | nan

/-- f64::from on an i32 (exact). -/
noncomputable def F64.ofInt (n : Int) : F64 := .finite (n : ℝ)

/-- IEEE-754 subtraction. -/
noncomputable def F64.sub : F64 → F64 → F64
  | .nan, _ => .nan
  | .finite _, .nan => .nan
  | .pinf, .nan => .nan
  | .ninf, .nan => .nan
  | .finite a, .finite b => .finite (a - b)
  | .finite _, .pinf => .ninf
  | .finite _, .ninf => .pinf
  | .pinf, .finite _ => .pinf
  | .ninf, .finite _ => .ninf
  | .pinf, .pinf => .nan
  | .ninf, .ninf => .nan
  | .pinf, .ninf => .pinf
  | .ninf, .pinf => .ninf

/-- IEEE-754 multiplication; `0 * inf` is NaN. -/
noncomputable def F64.mul : F64 → F64 → F64
  | .nan, _ => .nan
  | .finite _, .nan => .nan
  | .pinf, .nan => .nan
  | .ninf, .nan => .nan
  | .finite a, .finite b => .finite (a * b)
  | .finite a, .pinf => if 0 < a then .pinf else if a < 0 then .ninf else .nan
  | .finite a, .ninf => if 0 < a then .ninf else if a < 0 then .pinf else .nan
  | .pinf, .finite b => if 0 < b then .pinf else if b < 0 then .ninf else .nan
  | .ninf, .finite b => if 0 < b then .ninf else if b < 0 then .pinf else .nan
  | .pinf, .pinf => .pinf
  | .pinf, .ninf => .ninf
  | .ninf, .pinf => .ninf
  | .ninf, .ninf => .pinf

/-- IEEE-754 addition. -/
noncomputable def F64.add : F64 → F64 → F64
  | .nan, _ => .nan
  | .finite _, .nan => .nan
  | .pinf, .nan => .nan
  | .ninf, .nan => .nan
  | .finite a, .finite b => .finite (a + b)
  | .finite _, .pinf => .pinf
  | .finite _, .ninf => .ninf
  | .pinf, .finite _ => .pinf
  | .ninf, .finite _ => .ninf
  | .pinf, .pinf => .pinf
  | .ninf, .ninf => .ninf
  | .pinf, .ninf => .nan
  | .ninf, .pinf => .nan

/-- f64::ln: natural logarithm, `ln 0 = -inf`, `ln` of a negative number
or of NaN is NaN. -/
noncomputable def F64.ln : F64 → F64
  | .nan => .nan
  | .pinf => .pinf
  | .ninf => .nan
  | .finite x => if 0 < x then .finite (Real.log x) else if x = 0 then .ninf else .nan

/-- Truncation of a real toward zero (the rounding of the Rust float to
integer `as` cast on finite values). -/
noncomputable def truncToZero (x : ℝ) : Int :=
  if 0 ≤ x then ⌊x⌋ else -⌊-x⌋

/-- The Rust `as i64` cast of an f64: truncation toward zero with
saturation of finite values at the `i64` bounds, `NaN` to `0`, the
infinities to the `i64` bounds. -/
noncomputable def F64.toI64 : F64 → Int
  | .nan => 0
  | .pinf => 2 ^ 63 - 1
  | .ninf => -(2 ^ 63)
  | .finite x => max (-(2 ^ 63)) (min (2 ^ 63 - 1) (truncToZero x))

/-- Tally::get_delay: the authramp formula
`ramp_multiplier * (fails - free_tries) * ln (fails - free_tries)
 + base_delay_seconds`, computed in f64 and cast to whole seconds
(`Duration::seconds(.. as i64)`).  `failures_count` is passed explicitly
in place of `self`. -/
noncomputable def get_delay (s : Settings) (failures_count : Int) : Int :=
  F64.toI64
    (F64.add
      (F64.mul
        (F64.mul (F64.ofInt s.ramp_multiplier)
          (F64.sub (F64.ofInt failures_count) (F64.ofInt s.free_tries)))
        (F64.ln (F64.sub (F64.ofInt failures_count) (F64.ofInt s.free_tries))))
      (F64.ofInt s.base_delay_seconds))

/-- The real-valued authramp delay formula as the design notes state it:
`ramp_multiplier * (n - free_tries) * ln (n - free_tries)
 + base_delay_seconds`, for comparison with the computed `get_delay`. -/
noncomputable def delay_formula (s : Settings) (failures_count : Int) : ℝ :=
  (s.ramp_multiplier : ℝ) * ((failures_count : ℝ) - (s.free_tries : ℝ)) *
    Real.log ((failures_count : ℝ) - (s.free_tries : ℝ)) + (s.base_delay_seconds : ℝ)

/-- A TOML string value as the chrono FromStr sees it: either it parses as a
`DateTime<Utc>` with value `t`, or it does not parse. -/
inductive StrVal where
  | instant (t : Int)
  | garbage
  deriving DecidableEq

/-- StrVal.parse: `str::parse::<DateTime<Utc>>`, as an Option (`.ok()`). -/
def StrVal.parse : StrVal → Option Int
  | .instant t => some t
  | .garbage => none

/-- A TOML value in the `[Fails]` table: an integer, a string, or any
other TOML value (float, boolean, array, table, ...). -/
inductive TomlValue where
  | int (n : Int)
  | str (s : StrVal)
  | other
  deriving DecidableEq

/-- toml::Value::as_integer. -/
def TomlValue.as_integer : TomlValue → Option Int
  | .int n => some n
  | _ => none

/-- toml::Value::as_str. -/
def TomlValue.as_str : TomlValue → Option StrVal
  | .str s => some s
  | _ => none

/-- The Rust `as i32` cast of an i64 (wrap modulo 2 ^ 32). -/
def i64_as_i32 (n : Int) : Int :=
  (n + 2 ^ 31) % 2 ^ 32 - 2 ^ 31

/-- The `[Fails]` table of a tally file: the three optional fields. -/
structure FailsTable where
  count : Option TomlValue
  instant : Option TomlValue
  unlock_instant : Option TomlValue
  deriving DecidableEq

/-- A tally file as the loader sees it: unreadable (fs::read_to_string
fails), unparseable (toml::from_str fails), or parsed content whose
`[Fails]` table is present or absent. -/
inductive FileContent where
  | unreadable
  | unparseable
  | parsed (fails : Option FailsTable)
  deriving DecidableEq

/-- The field extraction of Tally::load_tally_from_file on a present
`[Fails]` table: `count` via `as_integer` then `as i32`, defaulting to 0;
`instant` via `as_str` then parse, defaulting to `DateTime::default()`
(the epoch); `unlock_instant` via `as_str` then parse, `None` on failure.
Each failing field is silently replaced, never an error. -/
def extract_fails (ft : FailsTable) : Tally :=
  { failures_count := ((ft.count.bind TomlValue.as_integer).map i64_as_i32).getD 0
    failure_instant := ((ft.instant.bind TomlValue.as_str).bind StrVal.parse).getD 0
    unlock_instant := (ft.unlock_instant.bind TomlValue.as_str).bind StrVal.parse }

/-- Tally::update_tally_from_section: dispatch on the action.
PREAUTH writes nothing and keeps the record; AUTHSUCC zeroes the count,
clears the unlock instant, and writes only `count = 0`; AUTHFAIL
increments the count, stamps `now`, computes the delay, caps it at 24
hours, sets `unlock_instant`, and writes all three fields.  The returned
pair is the updated in-memory record and the `[Fails]` table written to
the file (`none` when nothing is written). -/
noncomputable def update_tally_from_section (s : Settings) (now : Int) (tally : Tally) :
    Except PamResultCode (Tally × Option FailsTable) :=
  match s.get_action with
  | .error e => .error e
  | .ok .PREAUTH => .ok (tally, none)
  | .ok .AUTHSUCC =>
      .ok ({ tally with failures_count := 0, unlock_instant := none },
        some { count := some (.int 0), instant := none, unlock_instant := none })
  | .ok .AUTHFAIL =>
      let failures_count := tally.failures_count + 1
      let failure_instant := now
      let delay0 := get_delay s failures_count
      let delay := if delay0 > 86400 then 86400 else delay0
      let unlock := failure_instant + delay
      .ok ({ failures_count := failures_count, failure_instant := failure_instant,
             unlock_instant := some unlock },
        some { count := some (.int failures_count),
               instant := some (.str (.instant failure_instant)),
               unlock_instant := some (.str (.instant unlock)) })

/-- Tally::create_tally_file: the fresh file holds the `count` and
`instant` of the default record and no `unlock_instant`. -/
def create_tally_file (tally : Tally) : FailsTable :=
  { count := some (.int tally.failures_count)
    instant := some (.str (.instant tally.failure_instant))
    unlock_instant := none }

/-- Tally::load_tally_from_file: a read error, a TOML parse error, or a
missing `[Fails]` table is PAM_SYSTEM_ERR; otherwise the fields are
extracted (with silent per-field defaults) and
`update_tally_from_section` runs. -/
noncomputable def load_tally_from_file (s : Settings) (c : FileContent) (now : Int) :
    Except PamResultCode (Tally × Option FailsTable) :=
  match c with
  | .unreadable => .error .PAM_SYSTEM_ERR
  | .unparseable => .error .PAM_SYSTEM_ERR
  | .parsed none => .error .PAM_SYSTEM_ERR
  | .parsed (some ft) => update_tally_from_section s now (extract_fails ft)

/-- Tally::new_from_tally_file: resolve the user, then load the existing
file (`some c`) or create a fresh one (`none`, the file does not exist).
Creation returns the default record and writes it. -/
noncomputable def new_from_tally_file (s : Settings) (now : Int) (file : Option FileContent) :
    Except PamResultCode (Tally × Option FailsTable) :=
  match s.get_user with
  | .error e => .error e
  | .ok _ =>
    match file with
    | some c => load_tally_from_file s c now
    | none =>
        let tally := Tally.default now
        .ok (tally, some (create_tally_file tally))

/-- The observable outcome of bounce_auth: the returned PAM code and the
instant the blocking countdown loop runs until (`while Utc::now() <
unlock_instant`), `none` when the loop is not entered. -/
structure BounceResult where
  code : PamResultCode
  waitUntil : Option Int
  deriving DecidableEq

/-- bounce_auth (crates/lib/src/lib.rs): resolve the user; a root user is
let through with PAM_SUCCESS unless `even_deny_root`; when the count
exceeds `free_tries` and a conversation is available, the loop blocks
until the stored `unlock_instant` (or the failure instant plus the
recomputed, uncapped delay when the record has none) and then returns
PAM_SUCCESS; otherwise PAM_AUTH_ERR. -/
noncomputable def bounce_auth (s : Settings) (tally : Tally) (conv : Bool) : BounceResult :=
  match s.get_user with
  | .error e => { code := e, waitUntil := none }
  | .ok uid =>
    if uid = 0 ∧ ¬s.even_deny_root then { code := .PAM_SUCCESS, waitUntil := none }
    else if tally.failures_count > s.free_tries then
      if conv then
        let delay := get_delay s tally.failures_count
        let unlock := tally.unlock_instant.getD (tally.failure_instant + delay)
        { code := .PAM_SUCCESS, waitUntil := some unlock }
      else { code := .PAM_AUTH_ERR, waitUntil := none }
    else { code := .PAM_AUTH_ERR, waitUntil := none }

/-- The display value of one countdown iteration: the remaining time
capped at 24 hours (`min(remaining_time, Duration::hours(24))`). -/
def capped_remaining_time (unlock now : Int) : Int :=
  min (unlock - now) 86400

/-- sm_authenticate (crates/lib/src/lib.rs): init_authramp loads the
tally, the closure dispatches on the action (PREAUTH bounces when locked,
AUTHFAIL always bounces, AUTHSUCC yields Err(PAM_AUTH_ERR)), and the
final `.unwrap_or(PAM_SUCCESS)` replaces every `Err` - including a
PAM_SYSTEM_ERR from the tally store - with PAM_SUCCESS. -/
noncomputable def sm_authenticate (s : Settings) (file : Option FileContent) (conv : Bool)
    (now : Int) : PamResultCode :=
  let r : Except PamResultCode PamResultCode :=
    match new_from_tally_file s now file with
    | .error e => .error e
    | .ok (tally, _) =>
      match s.get_action with
      | .error e => .error e
      | .ok .PREAUTH =>
          if tally.failures_count > s.free_tries then .error (bounce_auth s tally conv).code
          else .ok .PAM_SUCCESS
      | .ok .AUTHFAIL => .error (bounce_auth s tally conv).code
      | .ok .AUTHSUCC => .error .PAM_AUTH_ERR
  match r with
  | .ok c => c
  | .error _ => .PAM_SUCCESS

/-- The documented default configuration (free_tries 6, base delay 30 s,
multiplier 50, root exempt), for a non-root user, parameterized by the
action argument. -/
def defaultSettings (a : Actions) : Settings :=
  { free_tries := 6, base_delay_seconds := 30, ramp_multiplier := 50,
    even_deny_root := false, action := some a, user := some 1000 }

/-- A configuration whose ramp_multiplier is zero: the config loader
accepts any i32 for `ramp_multiplier` without validation, so this is an
admissible configuration (free_tries and base delay as in the defaults). -/
def zeroRampSettings : Settings :=
  { free_tries := 6, base_delay_seconds := 30, ramp_multiplier := 0,
    even_deny_root := false, action := some .PREAUTH, user := some 1000 }

/-- An extreme admissible configuration: ramp_multiplier is i32::MAX and
free_tries and base delay are 0 (the config loader accepts any i32s). -/
def saturatingSettings : Settings :=
  { free_tries := 0, base_delay_seconds := 0, ramp_multiplier := 2147483647,
    even_deny_root := false, action := some .PREAUTH, user := some 1000 }

end Authramp

namespace Authramp

/-- Truncation toward zero of an integer is that integer. -/
theorem truncToZero_intCast (n : Int) : truncToZero (n : ℝ) = n := by
  unfold truncToZero
  rcases le_or_lt 0 ((n : ℝ)) with h | h
  · rw [if_pos h, Int.floor_intCast]
  · rw [if_neg (not_le.mpr h), ← Int.cast_neg, Int.floor_intCast, neg_neg]

/-- Truncation toward zero agrees with the floor on nonnegative reals. -/
theorem truncToZero_eq_floor (x : ℝ) (h : 0 ≤ x) : truncToZero x = ⌊x⌋ :=
  if_pos h

/-- Above the threshold the delay calculator computes the real-valued
authramp formula truncated toward zero and saturated at the i64 bounds:
all f64 intermediates are finite. -/
theorem get_delay_eq_of_lt (s : Settings) (c : Int) (h : s.free_tries < c) :
    get_delay s c =
      max (-(2 ^ 63)) (min (2 ^ 63 - 1) (truncToZero (delay_formula s c))) := by
  have hpos : (0 : ℝ) < (c : ℝ) - (s.free_tries : ℝ) := by
    have hc : (s.free_tries : ℝ) < (c : ℝ) := by exact_mod_cast h
    linarith
  simp [get_delay, delay_formula, F64.ofInt, F64.sub, F64.mul, F64.add, F64.ln,
    F64.toI64, hpos]

/-- When the truncated formula value lies within the i64 range, the
saturation is inert and the computed delay is exactly the truncated
formula. -/
theorem get_delay_eq_of_lt_small (s : Settings) (c : Int) (h : s.free_tries < c)
    (hlo : -(2 ^ 63) ≤ truncToZero (delay_formula s c))
    (hhi : truncToZero (delay_formula s c) ≤ 2 ^ 63 - 1) :
    get_delay s c = truncToZero (delay_formula s c) := by
  rw [get_delay_eq_of_lt s c h, min_eq_right hhi, max_eq_right hlo]

/-- At or below the threshold the logarithm argument is zero or negative,
the f64 value is NaN (via `ln 0 = -inf` and `0 * inf = NaN`, or `ln` of a
negative number), and the `as i64` cast turns it into 0 seconds. -/
theorem get_delay_eq_zero_of_le (s : Settings) (c : Int) (h : c ≤ s.free_tries) :
    get_delay s c = 0 := by
  rcases lt_or_eq_of_le h with hlt | heq
  · have hneg : (c : ℝ) - (s.free_tries : ℝ) < 0 := by
      have hc : (c : ℝ) < (s.free_tries : ℝ) := by exact_mod_cast hlt
      linarith
    simp [get_delay, F64.ofInt, F64.sub, F64.mul, F64.add, F64.ln, F64.toI64,
      not_lt.mpr (le_of_lt hneg), ne_of_lt hneg]
  · subst heq
    simp [get_delay, F64.ofInt, F64.sub, F64.mul, F64.add, F64.ln, F64.toI64]


/-- One step of the ramp: `d*ln d` grows by more than one second per
extra failure, for every integer `d >= 1`. -/
theorem mul_log_succ_ge (d : Int) (hd : 1 ≤ d) :
    (d : ℝ) * Real.log d + 1 ≤ ((d : ℝ) + 1) * Real.log ((d : ℝ) + 1) := by
  have he4 : Real.exp 1 ≤ 4 := le_of_lt (lt_trans Real.exp_one_lt_d9 (by norm_num))
  rcases eq_or_lt_of_le hd with h1 | h2
  · rw [← h1]
    have hlog4 : (1 : ℝ) ≤ Real.log 4 := (Real.le_log_iff_exp_le (by norm_num)).mpr he4
    have h24 : Real.log 4 = 2 * Real.log 2 := by
      rw [show (4 : ℝ) = 2 ^ 2 by norm_num, Real.log_pow]
      push_cast
      ring
    simp only [Int.cast_one, Real.log_one]
    norm_num
    nlinarith [h24, hlog4]
  · have hd2 : (2 : ℝ) ≤ (d : ℝ) := by exact_mod_cast h2
    have hdpos : (0 : ℝ) < (d : ℝ) := by linarith
    have hmono : Real.log d ≤ Real.log ((d : ℝ) + 1) := Real.log_le_log hdpos (by linarith)
    have hlog3 : (1 : ℝ) ≤ Real.log ((d : ℝ) + 1) := by
      refine (Real.le_log_iff_exp_le (by linarith)).mpr ?_
      calc Real.exp 1 ≤ 3 := le_of_lt (lt_trans Real.exp_one_lt_d9 (by norm_num))
      _ ≤ (d : ℝ) + 1 := by linarith
    have hdm : (d : ℝ) * Real.log d ≤ (d : ℝ) * Real.log ((d : ℝ) + 1) :=
      mul_le_mul_of_nonneg_left hmono (by linarith)
    calc (d : ℝ) * Real.log d + 1 ≤ (d : ℝ) * Real.log ((d : ℝ) + 1) + Real.log ((d : ℝ) + 1) := by
          linarith
    _ = ((d : ℝ) + 1) * Real.log ((d : ℝ) + 1) := by ring


/-- An integer below a real is below its truncation toward zero. -/
theorem le_truncToZero (n : Int) (x : ℝ) (h : (n : ℝ) ≤ x) : n ≤ truncToZero x := by
  unfold truncToZero
  rcases le_or_lt 0 x with h0 | h0
  · rw [if_pos h0]
    exact Int.le_floor.mpr h
  · rw [if_neg (not_le.mpr h0)]
    have hc : n = ⌈(n : ℝ)⌉ := (Int.ceil_intCast n).symm
    calc n = ⌈(n : ℝ)⌉ := hc
    _ ≤ ⌈x⌉ := Int.ceil_le_ceil h
    _ = -⌊-x⌋ := by rw [Int.floor_neg, neg_neg]

/-- Truncation toward zero of a real below an integer is below it. -/
theorem truncToZero_le (n : Int) (x : ℝ) (h : x ≤ (n : ℝ)) : truncToZero x ≤ n := by
  have hceil : ⌈x⌉ ≤ n := Int.ceil_le.mpr h
  unfold truncToZero
  rcases le_or_lt 0 x with h0 | h0
  · rw [if_pos h0]
    exact le_trans (Int.floor_le_ceil x) hceil
  · rw [if_neg (not_le.mpr h0)]
    calc -⌊-x⌋ = ⌈x⌉ := by rw [Int.floor_neg, neg_neg]
    _ ≤ n := hceil

/-- Truncation toward zero is strictly monotone across a gap of one,
starting from a nonnegative value. -/
theorem truncToZero_lt_truncToZero (x y : ℝ) (h0 : 0 ≤ x) (h : x + 1 ≤ y) :
    truncToZero x < truncToZero y := by
  have h0y : (0 : ℝ) ≤ y := by linarith
  rw [truncToZero_eq_floor x h0, truncToZero_eq_floor y h0y]
  have h1 : ⌊x⌋ + 1 = ⌊x + 1⌋ := (Int.floor_add_one x).symm
  have h2 : ⌊x + 1⌋ ≤ ⌊y⌋ := Int.floor_le_floor h
  omega

/-- Above the threshold, with a nonnegative multiplier and a base delay
below the i64 saturation bound (any i32 is), the delay is at least the
base delay. -/
theorem get_delay_ge_base (s : Settings) (c : Int) (hf : s.free_tries < c)
    (hm : 0 ≤ s.ramp_multiplier) (hb63 : s.base_delay_seconds ≤ 2 ^ 63 - 1) :
    s.base_delay_seconds ≤ get_delay s c := by
  rw [get_delay_eq_of_lt s c hf]
  have hD : (1 : ℝ) ≤ (c : ℝ) - (s.free_tries : ℝ) := by
    have hfc : (s.free_tries : ℝ) + 1 ≤ (c : ℝ) := by exact_mod_cast hf
    linarith
  have hlog : 0 ≤ Real.log ((c : ℝ) - (s.free_tries : ℝ)) := Real.log_nonneg hD
  have hmr : (0 : ℝ) ≤ (s.ramp_multiplier : ℝ) := by exact_mod_cast hm
  have hT : s.base_delay_seconds ≤ truncToZero (delay_formula s c) := by
    refine le_truncToZero _ _ ?_
    have hprod : 0 ≤ (s.ramp_multiplier : ℝ) * ((c : ℝ) - (s.free_tries : ℝ)) *
        Real.log ((c : ℝ) - (s.free_tries : ℝ)) :=
      mul_nonneg (mul_nonneg hmr (by linarith)) hlog
    unfold delay_formula
    linarith
  exact le_trans (le_min hb63 hT) (le_max_right _ _)

/-- Above the threshold, with multiplier at least one, nonnegative base
delay, and the next formula value still below the i64 saturation bound,
the delay strictly increases with the failure count. -/
theorem get_delay_lt_succ (s : Settings) (c : Int) (hf : s.free_tries < c)
    (hb : 0 ≤ s.base_delay_seconds) (hm : 1 ≤ s.ramp_multiplier)
    (hsat : truncToZero (delay_formula s (c + 1)) ≤ 2 ^ 63 - 1) :
    get_delay s c < get_delay s (c + 1) := by
  have key := mul_log_succ_ge (c - s.free_tries) (by omega)
  have hcast : ((c - s.free_tries : ℤ) : ℝ) = (c : ℝ) - (s.free_tries : ℝ) := by
    push_cast
    ring
  rw [hcast] at key
  have hD : (1 : ℝ) ≤ (c : ℝ) - (s.free_tries : ℝ) := by
    have hfc : (s.free_tries : ℝ) + 1 ≤ (c : ℝ) := by exact_mod_cast hf
    linarith
  have hlog : 0 ≤ Real.log ((c : ℝ) - (s.free_tries : ℝ)) := Real.log_nonneg hD
  have hmr : (1 : ℝ) ≤ (s.ramp_multiplier : ℝ) := by exact_mod_cast hm
  have hbr : (0 : ℝ) ≤ (s.base_delay_seconds : ℝ) := by exact_mod_cast hb
  have hmkey := mul_le_mul_of_nonneg_left key (by linarith : (0 : ℝ) ≤ (s.ramp_multiplier : ℝ))
  have hprod : 0 ≤ (s.ramp_multiplier : ℝ) * ((c : ℝ) - (s.free_tries : ℝ)) *
      Real.log ((c : ℝ) - (s.free_tries : ℝ)) :=
    mul_nonneg (mul_nonneg (by linarith) (by linarith)) hlog
  have hx0 : (0 : ℝ) ≤ delay_formula s c := by
    unfold delay_formula
    linarith
  have hstep : delay_formula s c + 1 ≤ delay_formula s (c + 1) := by
    unfold delay_formula
    push_cast
    have hsucc : (c : ℝ) + 1 - (s.free_tries : ℝ) = ((c : ℝ) - (s.free_tries : ℝ)) + 1 := by
      ring
    rw [hsucc]
    nlinarith
  have hT := truncToZero_lt_truncToZero _ _ hx0 hstep
  have hT0 : (0 : ℤ) ≤ truncToZero (delay_formula s c) :=
    le_truncToZero 0 _ (by exact_mod_cast hx0)
  have hpow : (0 : ℤ) ≤ 2 ^ 63 := by positivity
  rw [get_delay_eq_of_lt s c hf, get_delay_eq_of_lt s (c + 1) (by omega),
    min_eq_right (by linarith : truncToZero (delay_formula s c) ≤ 2 ^ 63 - 1),
    min_eq_right hsat, max_eq_right (by linarith), max_eq_right (by linarith)]
  exact hT


/-- The PREAUTH branch of update_tally_from_section: no mutation, no write. -/
theorem update_preauth (s : Settings) (now : Int) (tally : Tally)
    (ha : s.action = some .PREAUTH) :
    update_tally_from_section s now tally = .ok (tally, none) := by
  unfold update_tally_from_section Settings.get_action
  rw [ha]

/-- The AUTHSUCC branch of update_tally_from_section: count zeroed, unlock
instant cleared, and only `count = 0` written back. -/
theorem update_authsucc (s : Settings) (now : Int) (tally : Tally)
    (ha : s.action = some .AUTHSUCC) :
    update_tally_from_section s now tally =
      .ok ({ tally with failures_count := 0, unlock_instant := none },
        some { count := some (.int 0), instant := none, unlock_instant := none }) := by
  unfold update_tally_from_section Settings.get_action
  rw [ha]

/-- The 24-hour cap of the AUTHFAIL branch is a minimum. -/
theorem cap_eq_min (d : Int) : (if d > 86400 then 86400 else d) = min d 86400 := by
  rcases le_or_lt d 86400 with h | h
  · rw [if_neg (not_lt.mpr h), min_eq_left h]
  · rw [if_pos h, min_eq_right (le_of_lt h)]

/-- The AUTHFAIL branch of update_tally_from_section: increment, stamp the
failure instant, set the unlock instant to now plus the capped delay, and
write all three fields. -/
theorem update_authfail (s : Settings) (now : Int) (tally : Tally)
    (ha : s.action = some .AUTHFAIL) :
    update_tally_from_section s now tally =
      .ok ({ failures_count := tally.failures_count + 1, failure_instant := now,
             unlock_instant :=
               some (now + min (get_delay s (tally.failures_count + 1)) 86400) },
        some { count := some (.int (tally.failures_count + 1)),
               instant := some (.str (.instant now)),
               unlock_instant :=
                 some (.str (.instant
                   (now + min (get_delay s (tally.failures_count + 1)) 86400))) }) := by
  unfold update_tally_from_section Settings.get_action
  rw [ha]
  simp only [cap_eq_min]

/-- The i64 to i32 cast is the identity on the i32 range. -/
theorem i64_as_i32_eq (n : Int) (h1 : -(2 ^ 31) ≤ n) (h2 : n < 2 ^ 31) :
    i64_as_i32 n = n := by
  have h31 : (2 : ℤ) ^ 31 = 2147483648 := by norm_num
  have h32 : (2 : ℤ) ^ 32 = 4294967296 := by norm_num
  rw [h31] at h1 h2
  unfold i64_as_i32
  rw [h31, h32, Int.emod_eq_of_lt (by omega) (by omega)]
  omega


/-- C4 counterexample: with the admissible configuration ramp_multiplier
= i32::MAX, free_tries = 0, base delay 0, at failure count 2 ^ 30 the
truncated formula value is at least 2 ^ 63 while the computed delay
saturates (the Rust `as i64` cast) to 2 ^ 63 - 1, so the computed delay
does not equal the truncated formula. -/
theorem C4_counterexample :
    saturatingSettings.free_tries < 1073741824 ∧
    get_delay saturatingSettings 1073741824 = 2 ^ 63 - 1 ∧
    2 ^ 63 ≤ truncToZero (delay_formula saturatingSettings 1073741824) ∧
    get_delay saturatingSettings 1073741824 ≠
      truncToZero (delay_formula saturatingSettings 1073741824) := by
  have hform : delay_formula saturatingSettings 1073741824 =
      (2147483647 : ℝ) * 1073741824 * Real.log 1073741824 := by
    unfold delay_formula
    norm_num [saturatingSettings]
  have hlog : (20 : ℝ) ≤ Real.log 1073741824 := by
    rw [show (1073741824 : ℝ) = 2 ^ 30 by norm_num, Real.log_pow]
    have h2 := Real.log_two_gt_d9
    push_cast
    nlinarith
  have hv : ((9223372036854775808 : ℤ) : ℝ) ≤ delay_formula saturatingSettings 1073741824 := by
    rw [hform]
    have hmul : (2147483647 : ℝ) * 1073741824 * 20 ≤
        (2147483647 : ℝ) * 1073741824 * Real.log 1073741824 :=
      mul_le_mul_of_nonneg_left hlog (by norm_num)
    push_cast
    linarith
  have htr : (9223372036854775808 : ℤ) ≤
      truncToZero (delay_formula saturatingSettings 1073741824) :=
    le_truncToZero _ _ hv
  have hpow : (2 : ℤ) ^ 63 = 9223372036854775808 := by norm_num
  refine ⟨by decide, ?_, by linarith, ?_⟩
  · rw [get_delay_eq_of_lt saturatingSettings 1073741824 (by decide),
      min_eq_left (by linarith), max_eq_right (by linarith)]
  · rw [get_delay_eq_of_lt saturatingSettings 1073741824 (by decide),
      min_eq_left (by linarith), max_eq_right (by linarith)]
    exact ne_of_lt (by linarith)

/-- C4 (amended): for every failure_count above free_tries the computed
delay is the authramp formula truncated toward zero and saturated at the
i64 bounds; whenever the truncated value lies within the i64 range (as in
every realistic configuration) it equals the truncated formula exactly,
and when the difference is one the delay is exactly the base delay (30 s
at failure_count 7 under the defaults). -/
theorem C4_amended (s : Settings) (c : Int) (h : s.free_tries < c) :
    get_delay s c = max (-(2 ^ 63)) (min (2 ^ 63 - 1) (truncToZero (delay_formula s c))) ∧
    (-(2 ^ 63) ≤ truncToZero (delay_formula s c) →
      truncToZero (delay_formula s c) ≤ 2 ^ 63 - 1 →
      get_delay s c = truncToZero (delay_formula s c)) ∧
    (c - s.free_tries = 1 → -(2 ^ 63) ≤ s.base_delay_seconds →
      s.base_delay_seconds ≤ 2 ^ 63 - 1 → get_delay s c = s.base_delay_seconds) := by
  refine ⟨get_delay_eq_of_lt s c h, get_delay_eq_of_lt_small s c h, fun h1 hblo hbhi => ?_⟩
  have hD : (c : ℝ) - (s.free_tries : ℝ) = 1 := by
    have hcast : ((c - s.free_tries : ℤ) : ℝ) = ((1 : ℤ) : ℝ) := by
      exact_mod_cast congrArg Int.cast h1
    push_cast at hcast
    linarith
  have hform : delay_formula s c = ((s.base_delay_seconds : ℤ) : ℝ) := by
    unfold delay_formula
    rw [hD, Real.log_one, mul_zero, zero_add]
  have htr : truncToZero (delay_formula s c) = s.base_delay_seconds := by
    rw [hform, truncToZero_intCast]
  rw [get_delay_eq_of_lt_small s c h (by rw [htr]; exact hblo) (by rw [htr]; exact hbhi), htr]

/-- C4 witness: under the documented defaults (free 6, base 30, ramp 50)
the seventh failure gives exactly a 30-second delay. -/
theorem C4_amended_witness :
    (defaultSettings .PREAUTH).free_tries < 7 ∧ get_delay (defaultSettings .PREAUTH) 7 = 30 :=
  ⟨by decide,
    (C4_amended (defaultSettings .PREAUTH) 7 (by decide)).2.2 (by decide) (by decide) (by decide)⟩

/-- C5 counterexample: with the admissible configuration ramp_multiplier
= 0 the delay is the constant base delay, so it is not strictly
increasing above the threshold: at failure counts 7 and 8 it is 30 both
times. -/
theorem C5_counterexample :
    zeroRampSettings.free_tries < 7 ∧
    get_delay zeroRampSettings 7 = 30 ∧ get_delay zeroRampSettings 8 = 30 ∧
    ¬ get_delay zeroRampSettings 7 < get_delay zeroRampSettings 8 := by
  have hform : ∀ c : Int, delay_formula zeroRampSettings c = ((30 : ℤ) : ℝ) := by
    intro c
    unfold delay_formula
    norm_num [zeroRampSettings]
  have h7 : get_delay zeroRampSettings 7 = 30 := by
    rw [get_delay_eq_of_lt zeroRampSettings 7 (by decide), hform 7, truncToZero_intCast]
    decide
  have h8 : get_delay zeroRampSettings 8 = 30 := by
    rw [get_delay_eq_of_lt zeroRampSettings 8 (by decide), hform 8, truncToZero_intCast]
    decide
  exact ⟨by decide, h7, h8, by rw [h7, h8]; omega⟩

/-- C5 (amended): for every configuration with nonnegative base delay
(within the i64 range, as any i32 is) and failure counts above
free_tries: the delay is at least the base delay whenever ramp_multiplier
is nonnegative, and is strictly increasing in the failure count whenever
ramp_multiplier is at least 1 and the next formula value has not reached
the i64 saturation bound (beyond it consecutive delays are the constant
i64::MAX); with ramp_multiplier 0 the delay is constant, so the original
unconditional claim fails. -/
theorem C5_amended (s : Settings) (c : Int) (hf : s.free_tries < c)
    (hb : 0 ≤ s.base_delay_seconds) (hb63 : s.base_delay_seconds ≤ 2 ^ 63 - 1) :
    (0 ≤ s.ramp_multiplier → s.base_delay_seconds ≤ get_delay s c) ∧
    (1 ≤ s.ramp_multiplier → truncToZero (delay_formula s (c + 1)) ≤ 2 ^ 63 - 1 →
      get_delay s c < get_delay s (c + 1)) :=
  ⟨fun hm => get_delay_ge_base s c hf hm hb63,
    fun hm hsat => get_delay_lt_succ s c hf hb hm hsat⟩

/-- C5 witness: the amended claim at the documented defaults and failure
count 7 (eighth-failure formula value 100 ln 2 + 30, far below the i64
bound). -/
theorem C5_amended_witness :
    (defaultSettings .PREAUTH).free_tries < 7 ∧
    0 ≤ (defaultSettings .PREAUTH).base_delay_seconds ∧
    (defaultSettings .PREAUTH).base_delay_seconds ≤ 2 ^ 63 - 1 ∧
    truncToZero (delay_formula (defaultSettings .PREAUTH) 8) ≤ 2 ^ 63 - 1 ∧
    (defaultSettings .PREAUTH).base_delay_seconds ≤ get_delay (defaultSettings .PREAUTH) 7 ∧
    get_delay (defaultSettings .PREAUTH) 7 < get_delay (defaultSettings .PREAUTH) 8 := by
  have hsat : truncToZero (delay_formula (defaultSettings .PREAUTH) 8) ≤ 2 ^ 63 - 1 := by
    refine truncToZero_le _ _ ?_
    have hform : delay_formula (defaultSettings .PREAUTH) 8 = 100 * Real.log 2 + 30 := by
      unfold delay_formula
      norm_num [defaultSettings]
    have hl2 := Real.log_two_lt_d9
    rw [hform]
    push_cast
    nlinarith
  refine ⟨by decide, by decide, by decide, hsat,
    (C5_amended (defaultSettings .PREAUTH) 7 (by decide) (by decide) (by decide)).1 (by decide), ?_⟩
  have h := (C5_amended (defaultSettings .PREAUTH) 7 (by decide) (by decide) (by decide)).2
    (by decide) (by norm_num; exact hsat)
  norm_num at h
  exact h

/-- C10: the delay calculator is total: at or below free_tries (where the
f64 logarithm argument is zero or negative and the product is NaN) it
returns zero seconds, and an AUTHFAIL transition that leaves the count at
or below free_tries - which calls the calculator unconditionally - records
an unlock_instant equal to the failure instant. -/
theorem C10_delay_total (s : Settings) (c now : Int) (tally : Tally)
    (hc : c ≤ s.free_tries) (ha : s.action = some .AUTHFAIL)
    (hcount : tally.failures_count + 1 ≤ s.free_tries) :
    get_delay s c = 0 ∧
    update_tally_from_section s now tally =
      .ok ({ failures_count := tally.failures_count + 1, failure_instant := now,
             unlock_instant := some now },
        some { count := some (.int (tally.failures_count + 1)),
               instant := some (.str (.instant now)),
               unlock_instant := some (.str (.instant now)) }) := by
  refine ⟨get_delay_eq_zero_of_le s c hc, ?_⟩
  rw [update_authfail s now tally ha, get_delay_eq_zero_of_le s (tally.failures_count + 1) hcount]
  norm_num

/-- C10 witness: under the defaults with action authfail, a third failure
(count 2 to 3, still at most free_tries 6) gets delay 0 and an unlock
instant equal to the new failure instant. -/
theorem C10_delay_total_witness :
    get_delay (defaultSettings .AUTHFAIL) 3 = 0 ∧
    update_tally_from_section (defaultSettings .AUTHFAIL) 42
        { failures_count := 2, failure_instant := 7, unlock_instant := some 9 } =
      .ok ({ failures_count := 3, failure_instant := 42, unlock_instant := some 42 },
        some { count := some (.int 3), instant := some (.str (.instant 42)),
               unlock_instant := some (.str (.instant 42)) }) :=
  C10_delay_total (defaultSettings .AUTHFAIL) 3 42
    { failures_count := 2, failure_instant := 7, unlock_instant := some 9 }
    (by decide) rfl (by decide)


/-- C2 counterexample: under the defaults, an AUTHFAIL on a clean record
(count 0) writes a record whose failure_count is 1, at most free_tries 6,
yet the written record does contain an unlock_instant - so the claimed
equivalence fails for AuthFail writes. -/
theorem C2_counterexample :
    update_tally_from_section (defaultSettings .AUTHFAIL) 1000
        { failures_count := 0, failure_instant := 0, unlock_instant := none } =
      .ok ({ failures_count := 1, failure_instant := 1000, unlock_instant := some 1000 },
        some { count := some (.int 1), instant := some (.str (.instant 1000)),
               unlock_instant := some (.str (.instant 1000)) }) ∧
    (1 : Int) ≤ (defaultSettings .AUTHFAIL).free_tries := by
  refine ⟨?_, by decide⟩
  rw [update_authfail (defaultSettings .AUTHFAIL) 1000
      { failures_count := 0, failure_instant := 0, unlock_instant := none } rfl,
    get_delay_eq_zero_of_le (defaultSettings .AUTHFAIL) (0 + 1) (by decide)]
  norm_num

/-- C2 (amended): records written at creation or by AUTHSUCC contain no
unlock_instant (and AUTHSUCC leaves the count at 0), but a record written
by AUTHFAIL always contains an unlock_instant, even when the resulting
failure_count is at most free_tries - in which case the stored unlock
instant equals the failure instant (zero delay). -/
theorem C2_amended :
    (∀ s now tally t2 ft, s.action = some Actions.AUTHFAIL →
      update_tally_from_section s now tally = .ok (t2, some ft) →
      ft.unlock_instant.isSome ∧ t2.unlock_instant.isSome ∧
        (t2.failures_count ≤ s.free_tries → t2.unlock_instant = some t2.failure_instant)) ∧
    (∀ s now tally t2 ft, s.action = some Actions.AUTHSUCC →
      update_tally_from_section s now tally = .ok (t2, some ft) →
      ft.unlock_instant = none ∧ t2.failures_count = 0 ∧ t2.unlock_instant = none) ∧
    (∀ tally, (create_tally_file tally).unlock_instant = none) := by
  refine ⟨fun s now tally t2 ft ha h => ?_, fun s now tally t2 ft ha h => ?_, fun tally => rfl⟩
  · rw [update_authfail s now tally ha] at h
    simp only [Except.ok.injEq, Prod.mk.injEq, Option.some.injEq] at h
    obtain ⟨h2, hf⟩ := h
    subst h2
    subst hf
    refine ⟨rfl, rfl, fun hle => ?_⟩
    have hz : get_delay s (tally.failures_count + 1) = 0 :=
      get_delay_eq_zero_of_le s (tally.failures_count + 1) hle
    simp [hz]
  · rw [update_authsucc s now tally ha] at h
    simp only [Except.ok.injEq, Prod.mk.injEq, Option.some.injEq] at h
    obtain ⟨h2, hf⟩ := h
    subst h2
    subst hf
    exact ⟨rfl, rfl, rfl⟩

/-- C2 witness: the amended claim at a concrete AUTHFAIL write (count 3 to
4 at most free_tries 6: unlock instant present and equal to the failure
instant) and a concrete AUTHSUCC write. -/
theorem C2_amended_witness :
    ((some (StrVal.instant 500) |> Option.map TomlValue.str).isSome ∧
      (some (500 + min (get_delay (defaultSettings .AUTHFAIL) 4) 86400)).isSome ∧
      ((3 : Int) + 1 ≤ (defaultSettings .AUTHFAIL).free_tries →
        (some (500 + min (get_delay (defaultSettings .AUTHFAIL) 4) 86400) : Option Int) =
          some 500)) ∧
    ((none : Option TomlValue) = none ∧ (0 : Int) = 0 ∧ (none : Option Int) = none) := by
  constructor
  · have h := C2_amended.1 (defaultSettings .AUTHFAIL) 500
      { failures_count := 3, failure_instant := 11, unlock_instant := some 12 }
      { failures_count := 3 + 1, failure_instant := 500,
        unlock_instant := some (500 + min (get_delay (defaultSettings .AUTHFAIL) (3 + 1)) 86400) }
      { count := some (.int (3 + 1)), instant := some (.str (.instant 500)),
        unlock_instant := some (.str (.instant
          (500 + min (get_delay (defaultSettings .AUTHFAIL) (3 + 1)) 86400))) }
      rfl (update_authfail (defaultSettings .AUTHFAIL) 500
        { failures_count := 3, failure_instant := 11, unlock_instant := some 12 } rfl)
    exact ⟨by decide, h.2.1, fun hle => h.2.2 hle⟩
  · have h := C2_amended.2.1 (defaultSettings .AUTHSUCC) 500
      { failures_count := 9, failure_instant := 11, unlock_instant := some 12 }
      { failures_count := 0, failure_instant := 11, unlock_instant := none }
      { count := some (.int 0), instant := none, unlock_instant := none }
      rfl (update_authsucc (defaultSettings .AUTHSUCC) 500
        { failures_count := 9, failure_instant := 11, unlock_instant := some 12 } rfl)
    exact h

/-- C6: AUTHSUCC resets the record regardless of prior state: the
persisted record has count 0 and no unlock_instant, the in-memory record
is cleared, and the sm_authenticate outcome of the invocation is
PAM_SUCCESS (admit). -/
theorem C6_authsucc_reset (s : Settings) (now : Int) (tally : Tally)
    (ha : s.action = some Actions.AUTHSUCC) :
    update_tally_from_section s now tally =
      .ok ({ tally with failures_count := 0, unlock_instant := none },
        some { count := some (.int 0), instant := none, unlock_instant := none }) ∧
    (∀ file conv, sm_authenticate s file conv now = .PAM_SUCCESS) := by
  refine ⟨update_authsucc s now tally ha, fun file conv => ?_⟩
  unfold sm_authenticate
  rcases hn : new_from_tally_file s now file with e | pr
  · simp
  · simp [Settings.get_action, ha]

/-- C6 witness: a concrete reset from a locked record. -/
theorem C6_authsucc_reset_witness :
    update_tally_from_section (defaultSettings .AUTHSUCC) 3000
        { failures_count := 9, failure_instant := 70, unlock_instant := some 90 } =
      .ok ({ failures_count := 0, failure_instant := 70, unlock_instant := none },
        some { count := some (.int 0), instant := none, unlock_instant := none }) ∧
    sm_authenticate (defaultSettings .AUTHSUCC)
        (some (.parsed (some
          { count := some (.int 9)
            instant := some (.str (.instant 70))
            unlock_instant := some (.str (.instant 90)) }))) true 3000 = .PAM_SUCCESS := by
  have h := C6_authsucc_reset (defaultSettings .AUTHSUCC) 3000
    { failures_count := 9, failure_instant := 70, unlock_instant := some 90 } rfl
  exact ⟨h.1, h.2 _ true⟩

/-- C7: PREAUTH never mutates the stored record: the update step writes
nothing and returns the loaded record unchanged, so loading an existing
parsed file under PREAUTH yields exactly its extracted fields with no
write - repeated PREAUTH invocations read the same record. -/
theorem C7_preauth_no_mutation (s : Settings) (now : Int) (ha : s.action = some Actions.PREAUTH) :
    (∀ tally, update_tally_from_section s now tally = .ok (tally, none)) ∧
    (∀ ft, load_tally_from_file s (.parsed (some ft)) now = .ok (extract_fails ft, none)) := by
  refine ⟨fun tally => update_preauth s now tally ha, fun ft => ?_⟩
  unfold load_tally_from_file
  exact update_preauth s now (extract_fails ft) ha

/-- C7 witness: a concrete locked record survives PREAUTH untouched, and
no write happens. -/
theorem C7_preauth_no_mutation_witness :
    update_tally_from_section (defaultSettings .PREAUTH) 600
        { failures_count := 42, failure_instant := 10, unlock_instant := some 20 } =
      .ok ({ failures_count := 42, failure_instant := 10, unlock_instant := some 20 }, none) ∧
    load_tally_from_file (defaultSettings .PREAUTH)
        (.parsed (some
          { count := some (.int 42)
            instant := some (.str (.instant 10))
            unlock_instant := some (.str (.instant 20)) })) 600 =
      .ok (extract_fails
          { count := some (.int 42)
            instant := some (.str (.instant 10))
            unlock_instant := some (.str (.instant 20)) }, none) := by
  have h := C7_preauth_no_mutation (defaultSettings .PREAUTH) 600 rfl
  exact ⟨h.1 _, h.2 _⟩


/-- C1 counterexample: a tally file whose TOML parses and has a `[Fails]`
table, but whose `count` and `instant` fields are unparseable strings and
whose `unlock_instant` is not a string, loads successfully with silently
substituted defaults (count 0, epoch instant, no unlock) instead of
returning a StoreError; and the workspace sm_authenticate hook turns a
genuine StoreError (unreadable file) into PAM_SUCCESS, not a deny code. -/
theorem C1_counterexample :
    load_tally_from_file (defaultSettings .PREAUTH)
        (.parsed (some
          { count := some (.str .garbage)
            instant := some (.str .garbage)
            unlock_instant := some (.int 3) })) 0 =
      .ok ({ failures_count := 0, failure_instant := 0, unlock_instant := none }, none) ∧
    sm_authenticate (defaultSettings .PREAUTH) (some .unreadable) true 0 = .PAM_SUCCESS := by
  constructor
  · have h := update_preauth (defaultSettings .PREAUTH) 0
      (extract_fails
        { count := some (.str .garbage)
          instant := some (.str .garbage)
          unlock_instant := some (.int 3) }) rfl
    exact h
  · rfl

/-- C1 (amended): loading returns a StoreError (PAM_SYSTEM_ERR) exactly
for an unreadable file, an unparseable TOML container, or a missing
`[Fails]` table; an individual field that fails to parse is silently
replaced by its default instead of erroring; and in the workspace
sm_authenticate hook a load error is replaced by PAM_SUCCESS
(`unwrap_or`), not mapped to a deny code. -/
theorem C1_amended :
    (∀ s now, load_tally_from_file s .unreadable now = .error .PAM_SYSTEM_ERR ∧
      load_tally_from_file s .unparseable now = .error .PAM_SYSTEM_ERR ∧
      load_tally_from_file s (.parsed none) now = .error .PAM_SYSTEM_ERR) ∧
    (∀ s now ft, s.action = some Actions.PREAUTH →
      load_tally_from_file s (.parsed (some ft)) now = .ok (extract_fails ft, none)) ∧
    (∀ ft v, ft.count = some v → v.as_integer = none →
      (extract_fails ft).failures_count = 0) ∧
    (∀ s conv now, sm_authenticate s (some .unreadable) conv now = .PAM_SUCCESS) := by
  refine ⟨fun s now => ⟨rfl, rfl, rfl⟩, fun s now ft ha => ?_, fun ft v hc hv => ?_, fun s conv now => ?_⟩
  · unfold load_tally_from_file
    exact update_preauth s now (extract_fails ft) ha
  · simp [extract_fails, hc, hv]
  · unfold sm_authenticate new_from_tally_file Settings.get_user
    rcases hu : s.user with _ | u
    · simp
    · simp [load_tally_from_file]

/-- C1 witness: the amended claim instantiated with a file whose count
field is a float (as_integer fails), under the default settings. -/
theorem C1_amended_witness :
    load_tally_from_file (defaultSettings .PREAUTH) .unreadable 9 = .error .PAM_SYSTEM_ERR ∧
    load_tally_from_file (defaultSettings .PREAUTH)
        (.parsed (some
          { count := some .other
            instant := some (.str (.instant 4))
            unlock_instant := none })) 9 =
      .ok (extract_fails
        { count := some .other
          instant := some (.str (.instant 4))
          unlock_instant := none }, none) ∧
    (extract_fails
        { count := some .other
          instant := some (.str (.instant 4))
          unlock_instant := none }).failures_count = 0 ∧
    sm_authenticate (defaultSettings .PREAUTH) (some .unreadable) false 9 = .PAM_SUCCESS := by
  refine ⟨(C1_amended.1 (defaultSettings .PREAUTH) 9).1, C1_amended.2.1 (defaultSettings .PREAUTH) 9 _ rfl, C1_amended.2.2.1 _ .other rfl rfl, C1_amended.2.2.2 (defaultSettings .PREAUTH) false 9⟩

/-- C3 counterexample: with the default config, a non-root user, a
conversation available, and a stored record with failure count 7 and a
stored unlock instant 200000 seconds after the current instant 0, the
bounce wait loop runs until that stored instant - more than 24 hours
(86400 s) from now - so the enforced unlock time is not clamped. -/
theorem C3_counterexample :
    bounce_auth (defaultSettings .PREAUTH)
        { failures_count := 7, failure_instant := 0, unlock_instant := some 200000 } true =
      { code := .PAM_SUCCESS, waitUntil := some 200000 } ∧
    86400 < (200000 : Int) - 0 := by
  refine ⟨?_, by decide⟩
  rfl

/-- C3 (amended): on AUTHFAIL the stored unlock_instant is the failure
instant plus the raw delay capped at 24 hours, and every displayed
remaining time is capped at 24 hours; but the unlock time the wait loop
enforces is the stored (or recomputed, uncapped) unlock instant itself,
not clamped to 24 hours from now. -/
theorem C3_amended :
    (∀ s now tally t2 ft, s.action = some Actions.AUTHFAIL →
      update_tally_from_section s now tally = .ok (t2, some ft) →
      t2.unlock_instant = some (now + min (get_delay s (tally.failures_count + 1)) 86400) ∧
      (∀ u, t2.unlock_instant = some u → u - now ≤ 86400)) ∧
    (∀ unlock now, capped_remaining_time unlock now ≤ 86400) := by
  refine ⟨fun s now tally t2 ft ha h => ?_, fun unlock now => min_le_right _ _⟩
  rw [update_authfail s now tally ha] at h
  simp only [Except.ok.injEq, Prod.mk.injEq, Option.some.injEq] at h
  obtain ⟨h2, _⟩ := h
  subst h2
  refine ⟨rfl, fun u hu => ?_⟩
  simp only [Option.some.injEq] at hu
  subst hu
  have := min_le_right (get_delay s (tally.failures_count + 1)) (86400 : Int)
  omega

/-- C3 witness: the amended claim at a concrete AUTHFAIL (stored unlock is
now plus the capped delay, within 24 hours of now) and a concrete display
cap. -/
theorem C3_amended_witness :
    ((some (700 + min (get_delay (defaultSettings .AUTHFAIL) (0 + 1)) 86400) : Option Int) =
        some (700 + min (get_delay (defaultSettings .AUTHFAIL) (0 + 1)) 86400) ∧
      (700 + min (get_delay (defaultSettings .AUTHFAIL) (0 + 1)) 86400) - 700 ≤ 86400) ∧
    capped_remaining_time 999999 0 ≤ 86400 := by
  have h := C3_amended.1 (defaultSettings .AUTHFAIL) 700
    { failures_count := 0, failure_instant := 3, unlock_instant := none }
    { failures_count := 0 + 1, failure_instant := 700,
      unlock_instant := some (700 + min (get_delay (defaultSettings .AUTHFAIL) (0 + 1)) 86400) }
    { count := some (.int (0 + 1)), instant := some (.str (.instant 700)),
      unlock_instant := some (.str (.instant
        (700 + min (get_delay (defaultSettings .AUTHFAIL) (0 + 1)) 86400))) }
    rfl (update_authfail (defaultSettings .AUTHFAIL) 700
      { failures_count := 0, failure_instant := 3, unlock_instant := none } rfl)
  exact ⟨⟨h.1, h.2 _ h.1⟩, C3_amended.2 999999 0⟩

/-- C8 counterexample: an AUTHSUCC reset from a record whose failure
instant is 77 writes a file holding only `count = 0`; re-reading that file
yields the epoch default instant 0, not 77, so persist-then-load is not
the identity on failure_instant for AuthSuccess-written records. -/
theorem C8_counterexample :
    update_tally_from_section (defaultSettings .AUTHSUCC) 0
        { failures_count := 5, failure_instant := 77, unlock_instant := some 99 } =
      .ok ({ failures_count := 0, failure_instant := 77, unlock_instant := none },
        some { count := some (.int 0), instant := none, unlock_instant := none }) ∧
    extract_fails { count := some (.int 0), instant := none, unlock_instant := none } =
      { failures_count := 0, failure_instant := 0, unlock_instant := none } ∧
    ({ failures_count := 0, failure_instant := 0, unlock_instant := none } : Tally) ≠
      { failures_count := 0, failure_instant := 77, unlock_instant := none } := by
  exact ⟨update_authsucc (defaultSettings .AUTHSUCC) 0
    { failures_count := 5, failure_instant := 77, unlock_instant := some 99 } rfl,
    by decide, by decide⟩

/-- C8 (amended): persist-then-load is the identity on failure_count and
unlock_instant for every write, and additionally on failure_instant for
records written at creation and on AUTHFAIL (the count fitting in i32);
an AUTHSUCC write omits the instant field, so re-reading yields the epoch
default failure_instant instead of the in-memory one. -/
theorem C8_amended :
    (∀ s now tally t2 ft, s.action = some Actions.AUTHFAIL →
      update_tally_from_section s now tally = .ok (t2, some ft) →
      -(2 ^ 31) ≤ t2.failures_count → t2.failures_count < 2 ^ 31 →
      extract_fails ft = t2) ∧
    (∀ now, extract_fails (create_tally_file (Tally.default now)) = Tally.default now) ∧
    (∀ s now tally t2 ft, s.action = some Actions.AUTHSUCC →
      update_tally_from_section s now tally = .ok (t2, some ft) →
      (extract_fails ft).failures_count = t2.failures_count ∧
      (extract_fails ft).unlock_instant = t2.unlock_instant ∧
      extract_fails ft = { t2 with failure_instant := 0 }) := by
  refine ⟨fun s now tally t2 ft ha h hlo hhi => ?_, fun now => ?_, fun s now tally t2 ft ha h => ?_⟩
  · rw [update_authfail s now tally ha] at h
    simp only [Except.ok.injEq, Prod.mk.injEq, Option.some.injEq] at h
    obtain ⟨h2, hf⟩ := h
    subst h2
    subst hf
    have hcnt : i64_as_i32 (tally.failures_count + 1) = tally.failures_count + 1 :=
      i64_as_i32_eq _ (by simpa using hlo) (by simpa using hhi)
    simp [extract_fails, TomlValue.as_integer, TomlValue.as_str, StrVal.parse, hcnt]
  · simp [extract_fails, create_tally_file, Tally.default, TomlValue.as_integer,
      TomlValue.as_str, StrVal.parse, i64_as_i32_eq 0 (by norm_num) (by norm_num)]
  · rw [update_authsucc s now tally ha] at h
    simp only [Except.ok.injEq, Prod.mk.injEq, Option.some.injEq] at h
    obtain ⟨h2, hf⟩ := h
    subst h2
    subst hf
    refine ⟨?_, rfl, ?_⟩
    · simp [extract_fails, TomlValue.as_integer, TomlValue.as_str, StrVal.parse,
        i64_as_i32_eq 0 (by norm_num) (by norm_num)]
    · simp [extract_fails, TomlValue.as_integer, TomlValue.as_str, StrVal.parse,
        i64_as_i32_eq 0 (by norm_num) (by norm_num)]

/-- C8 witness: the amended claim at a concrete AUTHFAIL write (the
written file re-reads to exactly the in-memory record), the creation
write, and a concrete AUTHSUCC write. -/
theorem C8_amended_witness :
    extract_fails
        { count := some (.int (4 + 1))
          instant := some (.str (.instant 800))
          unlock_instant := some (.str (.instant
            (800 + min (get_delay (defaultSettings .AUTHFAIL) (4 + 1)) 86400))) } =
      { failures_count := 4 + 1, failure_instant := 800,
        unlock_instant := some (800 + min (get_delay (defaultSettings .AUTHFAIL) (4 + 1)) 86400) } ∧
    extract_fails (create_tally_file (Tally.default 123)) = Tally.default 123 := by
  constructor
  · exact C8_amended.1 (defaultSettings .AUTHFAIL) 800
      { failures_count := 4, failure_instant := 2, unlock_instant := none }
      { failures_count := 4 + 1, failure_instant := 800,
        unlock_instant := some (800 + min (get_delay (defaultSettings .AUTHFAIL) (4 + 1)) 86400) }
      { count := some (.int (4 + 1))
        instant := some (.str (.instant 800))
        unlock_instant := some (.str (.instant
          (800 + min (get_delay (defaultSettings .AUTHFAIL) (4 + 1)) 86400))) }
      rfl (update_authfail (defaultSettings .AUTHFAIL) 800
        { failures_count := 4, failure_instant := 2, unlock_instant := none } rfl)
      (by decide) (by decide)
  · exact C8_amended.2.1 123

/-- C9: a principal with uid 0 under `even_deny_root = false` is always
let through: bounce_auth returns PAM_SUCCESS immediately, with no wait
loop, regardless of the tally state. -/
theorem C9_root_exempt (s : Settings) (tally : Tally) (conv : Bool)
    (hu : s.user = some 0) (hr : s.even_deny_root = false) :
    bounce_auth s tally conv = { code := .PAM_SUCCESS, waitUntil := none } := by
  unfold bounce_auth Settings.get_user
  rw [hu]
  simp [hr]

/-- C9 witness: root with the default config (even_deny_root false) and a
heavily locked tally (count 100, far-future unlock instant) is admitted
immediately. -/
theorem C9_root_exempt_witness :
    ({ defaultSettings .PREAUTH with user := some 0 } : Settings).free_tries < 100 ∧
    bounce_auth { defaultSettings .PREAUTH with user := some 0 }
        { failures_count := 100, failure_instant := 0, unlock_instant := some 999999 } true =
      { code := .PAM_SUCCESS, waitUntil := none } :=
  ⟨by decide, C9_root_exempt { defaultSettings .PREAUTH with user := some 0 }
    { failures_count := 100, failure_instant := 0, unlock_instant := some 999999 } true rfl rfl⟩

end Authramp
